import Mathlib

/-!
Shallow embedding of the clone registry in `tracking_server.py`.

The registry keeps three persisted JSON collections: the approved clone
list (`approved_clones.json`, a list of URL strings), the pending queue
(`queue.json`, a list of objects with `url`, `first_seen`,
`discovered_by_ip`), and the request counters (`requests.json`, an object
mapping URL to count).  Persistence (`load_json`/`save_json`) is modelled
by explicit state passing: each operation takes the loaded state and
returns the state as saved.  The HTTP transport, the admin-password gate
and the HTML rendering are external collaborators and are not modelled;
the operations below are the registry bodies after those checks.
-/

/-- A pending-queue entry, as constructed in `register_clone`
(`tracking_server.py` lines 176-180). -/
structure QueueEntry where
  url : String
  first_seen : String
  discovered_by_ip : String
deriving DecidableEq, Repr

/-- Lookup in the counters object: Python `counts.get(url, 0)`. -/
def countsGet : List (String × Nat) → String → Nat
  | [], _ => 0
  | p :: rest, k => if p.1 = k then p.2 else countsGet rest k

/-- Update in the counters object: Python `counts[url] = v` (replace the
existing key or insert a fresh one; dict keys are unique). -/
def countsSet : List (String × Nat) → String → Nat → List (String × Nat)
  | [], k, v => [(k, v)]
  | p :: rest, k, v => if p.1 = k then (k, v) :: rest else p :: countsSet rest k v

/-- The three persisted collections of the registry. -/
structure RegistryState where
  approved : List String
  queue : List QueueEntry
  request_counts : List (String × Nat)
deriving DecidableEq, Repr

/-- The list comprehension `[item['url'] for item in queue]`
(`tracking_server.py` line 171). -/
def queueUrls (s : RegistryState) : List String :=
  s.queue.map (fun item => item.url)

/-- The JSON body returned by `/api/register`. -/
inductive RegisterResponse where
  | approvedResp (requests : Nat)
  | pending
  | queued
deriving DecidableEq, Repr

/-- `register_clone` (`tracking_server.py` lines 142-183), after the
missing-field check: classify `clone_url` as approved (increment and save
counters), pending (no change) or new (append a queue entry and save the
queue).  `now` stands for `datetime.now().isoformat()`.  Note that the
function consults only literal membership in the approved list; it never
reads `ORIGINAL_SITE_URL`. -/
def register_clone (s : RegistryState) (clone_url visitor_ip now : String) :
    RegistryState × RegisterResponse :=
  if clone_url ∈ s.approved then
    let newCount := countsGet s.request_counts clone_url + 1
    ({ s with request_counts := countsSet s.request_counts clone_url newCount },
      RegisterResponse.approvedResp newCount)
  else if clone_url ∈ queueUrls s then
    (s, RegisterResponse.pending)
  else
    ({ s with queue := s.queue ++ [⟨clone_url, now, visitor_ip⟩] },
      RegisterResponse.queued)

/-- One row of the `/api/clones` response. -/
structure CloneInfo where
  url : String
  requests : Nat
  is_original : Bool
deriving DecidableEq, Repr

/-- `get_clones` (`tracking_server.py` lines 185-213): the original site
first when configured (Python string truthiness: non-empty), then the
approved list in stored order, skipping the original URL. -/
def get_clones (ORIGINAL_SITE_URL : String) (s : RegistryState) : List CloneInfo :=
  (if ORIGINAL_SITE_URL ≠ "" then
    [⟨ORIGINAL_SITE_URL, countsGet s.request_counts ORIGINAL_SITE_URL, true⟩]
  else []) ++
  (s.approved.filter (fun url => url != ORIGINAL_SITE_URL)).map
    (fun url => ⟨url, countsGet s.request_counts url, false⟩)

/-- `approve_clone` (`tracking_server.py` lines 447-467), after the
password check: drop every queue entry with this url, save the queue,
then append the url to the approved list if absent and save it. -/
def approve_clone (s : RegistryState) (url : String) : RegistryState :=
  let queue2 := s.queue.filter (fun item => item.url != url)
  if url ∈ s.approved then { s with queue := queue2 }
  else { s with queue := queue2, approved := s.approved ++ [url] }

/-- `reject_clone` (`tracking_server.py` lines 469-483), after the
password check: drop every queue entry with this url and save the queue. -/
def reject_clone (s : RegistryState) (url : String) : RegistryState :=
  { s with queue := s.queue.filter (fun item => item.url != url) }

/-- `kick_clone` (`tracking_server.py` lines 485-503), after the password
check: refuse with `('Cannot kick original site', 400)` when the url
equals `ORIGINAL_SITE_URL`, otherwise filter the url out of the approved
list and save it. -/
def kick_clone (ORIGINAL_SITE_URL : String) (s : RegistryState) (url : String) :
    RegistryState × Option (String × Nat) :=
  if url = ORIGINAL_SITE_URL then (s, some ("Cannot kick original site", 400))
  else ({ s with approved := s.approved.filter (fun u => u != url) }, none)

/-- Invariant 1 of the data model: no URL is simultaneously in the queue
and in the approved list. -/
def noOverlap (s : RegistryState) : Prop :=
  ∀ u ∈ s.approved, u ∉ queueUrls s

theorem countsGet_countsSet_self (m : List (String × Nat)) (k : String) (v : Nat) :
    countsGet (countsSet m k v) k = v := by
  induction m with
  | nil => simp [countsSet, countsGet]
  | cons p rest ih =>
    by_cases h : p.1 = k
    · simp [countsSet, countsGet, h]
    · simp [countsSet, countsGet, h, ih]

/-- Claim C3: registering a url that is in the approved list saves the
counters with that url incremented by exactly 1 (absent key counts as 0),
returns `approved` with the incremented count, and leaves the queue and
the approved list unchanged. -/
theorem register_approved_increments (s : RegistryState) (url ip now : String)
    (h : url ∈ s.approved) :
    register_clone s url ip now =
      ({ s with request_counts :=
          countsSet s.request_counts url (countsGet s.request_counts url + 1) },
        RegisterResponse.approvedResp (countsGet s.request_counts url + 1)) ∧
    countsGet (register_clone s url ip now).1.request_counts url
      = countsGet s.request_counts url + 1 ∧
    (register_clone s url ip now).1.queue = s.queue ∧
    (register_clone s url ip now).1.approved = s.approved := by
  simp [register_clone, h, countsGet_countsSet_self]

theorem register_approved_increments_witness :
    ("https://a.test" ∈ (⟨["https://a.test"], [], [("https://a.test", 4)]⟩ : RegistryState).approved) ∧
    (register_clone ⟨["https://a.test"], [], [("https://a.test", 4)]⟩
        "https://a.test" "9.9.9.9" "t1").2 = RegisterResponse.approvedResp 5 ∧
    (register_clone ⟨["https://a.test"], [], [("https://a.test", 4)]⟩
        "https://a.test" "9.9.9.9" "t1").1.request_counts = [("https://a.test", 5)] := by
  have h := register_approved_increments ⟨["https://a.test"], [], [("https://a.test", 4)]⟩
      "https://a.test" "9.9.9.9" "t1" (by decide)
  refine ⟨by decide, ?_, ?_⟩
  · rw [h.1]
    rfl
  · rw [h.1]
    rfl

/-- Claim C4: registering a url that is neither approved nor queued saves
the queue with exactly one new entry `{url, now, ip}` appended at the end
and returns `queued`; any later registration of the same url, while it is
still in the queue and not approved, returns `pending` and changes
nothing, in particular the registration immediately after the first. -/
theorem register_new_queued_then_pending (s s2 : RegistryState)
    (url ip now ip2 now2 : String)
    (hA : url ∉ s.approved) (hQ : url ∉ queueUrls s)
    (hA2 : url ∉ s2.approved) (hQ2 : url ∈ queueUrls s2) :
    register_clone s url ip now =
      ({ s with queue := s.queue ++ [⟨url, now, ip⟩] }, RegisterResponse.queued) ∧
    register_clone s2 url ip2 now2 = (s2, RegisterResponse.pending) ∧
    register_clone (register_clone s url ip now).1 url ip2 now2
      = ((register_clone s url ip now).1, RegisterResponse.pending) := by
  have h1 : register_clone s url ip now =
      ({ s with queue := s.queue ++ [⟨url, now, ip⟩] }, RegisterResponse.queued) := by
    simp [register_clone, hA, hQ]
  refine ⟨h1, by simp [register_clone, hA2, hQ2], ?_⟩
  rw [h1]
  simp [register_clone, queueUrls, hA]

theorem register_new_queued_then_pending_witness :
    (("https://b.test" : String) ∉ (⟨[], [], []⟩ : RegistryState).approved) ∧
    (("https://b.test" : String) ∉ queueUrls ⟨[], [], []⟩) ∧
    (register_clone ⟨[], [], []⟩ "https://b.test" "8.8.8.8" "t0").2
      = RegisterResponse.queued ∧
    (register_clone (register_clone ⟨[], [], []⟩ "https://b.test" "8.8.8.8" "t0").1
        "https://b.test" "7.7.7.7" "t1").2 = RegisterResponse.pending := by
  have h := register_new_queued_then_pending ⟨[], [], []⟩
      ⟨[], [⟨"https://b.test", "t0", "8.8.8.8"⟩], []⟩
      "https://b.test" "8.8.8.8" "t0" "7.7.7.7" "t1"
      (by decide) (by decide) (by decide) (by decide)
  refine ⟨by decide, by decide, ?_, ?_⟩
  · rw [h.1]
  · rw [h.2.2]

/-- Claim C2 counterexample: with `ORIGINAL_SITE_URL` configured as
`https://original.example`, `register_clone` never consults it (the
source reads `ORIGINAL_SITE_URL` only in `get_clones`, `kick_clone` and
the dashboard); registering that URL from a state whose approved list
does not literally contain it is classified by the first two membership
tests and ends in the queued branch: the response is `queued`, not
`approved`, and the counters are saved unchanged. -/
theorem register_original_unapproved_is_queued :
    (register_clone ⟨[], [], []⟩ "https://original.example" "203.0.113.9" "t0").2
        = RegisterResponse.queued ∧
    (register_clone ⟨[], [], []⟩ "https://original.example" "203.0.113.9" "t0").1.request_counts
        = [] := by
  exact ⟨rfl, rfl⟩

/-- Claim C2 amended: a url equal to the configured original-site URL is
treated by `register_clone` like any other url — when it is not literally
in the approved list (and not queued) it is appended to the queue and the
call returns `queued`, not `approved`; only literal membership in the
approved list yields the `approved` branch. -/
theorem register_ignores_original_config (s : RegistryState) (orig ip now : String)
    (hA : orig ∉ s.approved) (hQ : orig ∉ queueUrls s) :
    register_clone s orig ip now =
      ({ s with queue := s.queue ++ [⟨orig, now, ip⟩] }, RegisterResponse.queued) := by
  simp [register_clone, hA, hQ]

theorem register_ignores_original_config_witness :
    (("https://original.example" : String) ∉
      (⟨[], [], []⟩ : RegistryState).approved) ∧
    register_clone ⟨[], [], []⟩ "https://original.example" "203.0.113.9" "t0"
      = (⟨[], [⟨"https://original.example", "t0", "203.0.113.9"⟩], []⟩,
          RegisterResponse.queued) := by
  have h := register_ignores_original_config ⟨[], [], []⟩
      "https://original.example" "203.0.113.9" "t0" (by decide) (by decide)
  refine ⟨by decide, ?_⟩
  rw [h]
  rfl

/-- The urls of a `/api/clones` listing, in order. -/
def cloneUrls (l : List CloneInfo) : List String :=
  l.map (fun c => c.url)

theorem cloneInfo_url_map (f : String → Nat) (b : Bool) (l : List String) :
    List.map (fun c => c.url) (l.map (fun url => (⟨url, f url, b⟩ : CloneInfo))) = l := by
  induction l with
  | nil => rfl
  | cons a l ih =>
    simp only [List.map_cons] at ih ⊢
    rw [ih]

/-- Claim C5: with an original-site URL configured (non-empty), the
listing is the original site first with `is_original = true` and its
counter (0 if absent), then the approved list in stored order with
`is_original = false`, skipping entries equal to the original URL; when
the approved list has no duplicates neither does the emitted url
sequence.  `get_clones` reads the state and returns a list, so it
modifies no collection. -/
theorem get_clones_original_first_no_dup (ORIGINAL_SITE_URL : String)
    (s : RegistryState) (hcfg : ORIGINAL_SITE_URL ≠ "") :
    get_clones ORIGINAL_SITE_URL s =
      ⟨ORIGINAL_SITE_URL, countsGet s.request_counts ORIGINAL_SITE_URL, true⟩ ::
      (s.approved.filter (fun url => url != ORIGINAL_SITE_URL)).map
        (fun url => ⟨url, countsGet s.request_counts url, false⟩) ∧
    (s.approved.Nodup → (cloneUrls (get_clones ORIGINAL_SITE_URL s)).Nodup) := by
  have h1 : get_clones ORIGINAL_SITE_URL s =
      ⟨ORIGINAL_SITE_URL, countsGet s.request_counts ORIGINAL_SITE_URL, true⟩ ::
      (s.approved.filter (fun url => url != ORIGINAL_SITE_URL)).map
        (fun url => ⟨url, countsGet s.request_counts url, false⟩) := by
    simp [get_clones, hcfg]
  refine ⟨h1, fun hnd => ?_⟩
  rw [h1]
  have hmap : cloneUrls
      (⟨ORIGINAL_SITE_URL, countsGet s.request_counts ORIGINAL_SITE_URL, true⟩ ::
        (s.approved.filter (fun url => url != ORIGINAL_SITE_URL)).map
          (fun url => ⟨url, countsGet s.request_counts url, false⟩))
      = ORIGINAL_SITE_URL :: s.approved.filter (fun url => url != ORIGINAL_SITE_URL) := by
    simp only [cloneUrls, List.map_cons]
    rw [cloneInfo_url_map]
  rw [hmap]
  refine List.nodup_cons.mpr ⟨?_, hnd.filter _⟩
  simp [List.mem_filter]

theorem get_clones_original_first_no_dup_witness :
    ("https://o.test" : String) ≠ "" ∧
    get_clones "https://o.test"
        ⟨["https://a.test", "https://o.test"], [], [("https://a.test", 2)]⟩
      = [⟨"https://o.test", 0, true⟩, ⟨"https://a.test", 2, false⟩] ∧
    (cloneUrls (get_clones "https://o.test"
        ⟨["https://a.test", "https://o.test"], [], [("https://a.test", 2)]⟩)).Nodup := by
  have h := get_clones_original_first_no_dup "https://o.test"
      ⟨["https://a.test", "https://o.test"], [], [("https://a.test", 2)]⟩ (by decide)
  refine ⟨by decide, ?_, h.2 (by decide)⟩
  rw [h.1]
  rfl

/-- Claim C6: `approve_clone` saves the counters untouched, so a
registration right after an approval returns `approved` with the counter
resumed from its pre-approval stored value plus the one increment of this
call — never reset to zero. -/
theorem approve_then_register_resumes_count (s : RegistryState) (url ip now : String) :
    (approve_clone s url).request_counts = s.request_counts ∧
    (register_clone (approve_clone s url) url ip now).2
      = RegisterResponse.approvedResp (countsGet s.request_counts url + 1) := by
  have hmem : url ∈ (approve_clone s url).approved := by
    by_cases h : url ∈ s.approved <;> simp [approve_clone, h]
  have hc : (approve_clone s url).request_counts = s.request_counts := by
    by_cases h : url ∈ s.approved <;> simp [approve_clone, h]
  refine ⟨hc, ?_⟩
  simp [register_clone, hmem, hc]

/-- Claim C7: kicking a url equal to the configured original-site URL
answers `('Cannot kick original site', 400)` and returns the state — in
particular the approved set — unchanged, whatever the registry state is. -/
theorem kick_original_forbidden (ORIGINAL_SITE_URL : String) (s : RegistryState) :
    kick_clone ORIGINAL_SITE_URL s ORIGINAL_SITE_URL
      = (s, some ("Cannot kick original site", 400)) := by
  simp [kick_clone]

/-- Claim C8: kicking a url different from the original-site URL filters
it out of the approved list (a no-op when it is absent) and leaves the
queue and the request counters untouched. -/
theorem kick_non_original_removes (ORIGINAL_SITE_URL : String) (s : RegistryState)
    (url : String) (h : url ≠ ORIGINAL_SITE_URL) :
    kick_clone ORIGINAL_SITE_URL s url
      = ({ s with approved := s.approved.filter (fun u => u != url) }, none) ∧
    url ∉ (kick_clone ORIGINAL_SITE_URL s url).1.approved ∧
    (kick_clone ORIGINAL_SITE_URL s url).1.queue = s.queue ∧
    (kick_clone ORIGINAL_SITE_URL s url).1.request_counts = s.request_counts ∧
    (url ∉ s.approved → (kick_clone ORIGINAL_SITE_URL s url).1.approved = s.approved) := by
  have h1 : kick_clone ORIGINAL_SITE_URL s url
      = ({ s with approved := s.approved.filter (fun u => u != url) }, none) := by
    simp [kick_clone, h]
  refine ⟨h1, ?_, ?_, ?_, fun habs => ?_⟩
  · rw [h1]
    simp [List.mem_filter]
  · rw [h1]
  · rw [h1]
  · have hfe : ∀ a ∈ s.approved, (a != url) = true := fun a ha => by
      have hne : a ≠ url := fun e => habs (e ▸ ha)
      simpa using hne
    rw [h1]
    show s.approved.filter (fun u => u != url) = s.approved
    exact List.filter_eq_self.mpr hfe

theorem kick_non_original_removes_witness :
    ("https://a.test" : String) ≠ "https://o.test" ∧
    kick_clone "https://o.test"
        ⟨["https://a.test"], [], [("https://a.test", 3)]⟩ "https://a.test"
      = (⟨[], [], [("https://a.test", 3)]⟩, none) := by
  have h := kick_non_original_removes "https://o.test"
      ⟨["https://a.test"], [], [("https://a.test", 3)]⟩ "https://a.test" (by decide)
  refine ⟨by decide, ?_⟩
  rw [h.1]
  rfl

theorem filter_idem {α : Type} (p : α → Bool) (l : List α) :
    (l.filter p).filter p = l.filter p := by
  induction l with
  | nil => rfl
  | cons a l ih => by_cases h : p a <;> simp [List.filter_cons, h, ih]

/-- Claim C9: `reject_clone` only filters the queue, so it never changes
the approved list or the counters, and applying it twice saves exactly
the state of applying it once (filtering is idempotent). -/
theorem reject_idempotent (s : RegistryState) (url : String) :
    reject_clone (reject_clone s url) url = reject_clone s url ∧
    (reject_clone s url).approved = s.approved ∧
    (reject_clone s url).request_counts = s.request_counts ∧
    url ∉ queueUrls (reject_clone s url) := by
  refine ⟨?_, rfl, rfl, ?_⟩
  · simp [reject_clone, filter_idem]
  · simp [reject_clone, queueUrls, List.mem_filter]

/-- Claim C10: with no original-site URL configured (`ORIGINAL_SITE_URL`
is the empty string, its default), kicking the empty url — e.g. a missing
`url` form field, which `request.form.get` defaults to the empty
string — still hits the equality guard and fails with
`('Cannot kick original site', 400)`, leaving the state unchanged. -/
theorem kick_empty_url_unconfigured_forbidden (s : RegistryState) :
    kick_clone "" s "" = (s, some ("Cannot kick original site", 400)) := by
  simp [kick_clone]

instance (s : RegistryState) : Decidable (noOverlap s) := by
  unfold noOverlap
  infer_instance

theorem noOverlap_register_preserved (s : RegistryState) (url ip now : String)
    (h : noOverlap s) : noOverlap (register_clone s url ip now).1 := by
  by_cases hA : url ∈ s.approved
  · have e : (register_clone s url ip now).1 =
        { s with request_counts :=
            countsSet s.request_counts url (countsGet s.request_counts url + 1) } := by
      simp [register_clone, hA]
    rw [e]
    exact fun u hu => h u hu
  · by_cases hQ : url ∈ queueUrls s
    · have e : (register_clone s url ip now).1 = s := by
        simp [register_clone, hA, hQ]
      rw [e]
      exact h
    · have e : (register_clone s url ip now).1 =
          { s with queue := s.queue ++ [⟨url, now, ip⟩] } := by
        simp [register_clone, hA, hQ]
      rw [e]
      intro u hu
      have hu2 : u ∈ s.approved := hu
      have hne : u ≠ url := fun heq => hA (heq ▸ hu2)
      simp only [queueUrls, List.map_append, List.mem_append, not_or,
        List.map_cons, List.map_nil]
      exact ⟨h u hu2, by simp [hne]⟩

theorem noOverlap_approve_preserved (s : RegistryState) (url : String)
    (h : noOverlap s) : noOverlap (approve_clone s url) := by
  intro u hu
  by_cases hA : url ∈ s.approved
  · have e : approve_clone s url =
        { s with queue := s.queue.filter (fun item => item.url != url) } := by
      simp [approve_clone, hA]
    rw [e] at hu ⊢
    have hu2 : u ∈ s.approved := hu
    simp only [queueUrls, List.mem_map]
    rintro ⟨item, hitem, rfl⟩
    exact h _ hu2 (List.mem_map.mpr ⟨item, (List.mem_filter.mp hitem).1, rfl⟩)
  · have e : approve_clone s url =
        { s with queue := s.queue.filter (fun item => item.url != url),
                 approved := s.approved ++ [url] } := by
      simp [approve_clone, hA]
    rw [e] at hu ⊢
    have hu2 : u ∈ s.approved ++ [url] := hu
    simp only [queueUrls, List.mem_map]
    rintro ⟨item, hitem, rfl⟩
    have h1 : item ∈ s.queue := (List.mem_filter.mp hitem).1
    have h2 : item.url ≠ url := by simpa using (List.mem_filter.mp hitem).2
    rcases List.mem_append.mp hu2 with h3 | h3
    · exact h _ h3 (List.mem_map.mpr ⟨item, h1, rfl⟩)
    · exact h2 (by simpa using h3)

theorem noOverlap_reject_preserved (s : RegistryState) (url : String)
    (h : noOverlap s) : noOverlap (reject_clone s url) := by
  intro u hu
  have hu2 : u ∈ s.approved := hu
  simp only [reject_clone, queueUrls, List.mem_map]
  rintro ⟨item, hitem, rfl⟩
  exact h _ hu2 (List.mem_map.mpr ⟨item, (List.mem_filter.mp hitem).1, rfl⟩)

theorem noOverlap_kick_preserved (o : String) (s : RegistryState) (url : String)
    (h : noOverlap s) : noOverlap (kick_clone o s url).1 := by
  by_cases he : url = o
  · have e : (kick_clone o s url).1 = s := by simp [kick_clone, he]
    rw [e]
    exact h
  · have e : (kick_clone o s url).1 =
        { s with approved := s.approved.filter (fun u => u != url) } := by
      simp [kick_clone, he]
    rw [e]
    intro u hu
    exact h u (List.mem_filter.mp hu).1

/-- Claim C1: the no-overlap invariant — no url is both in the queue and
in the approved list — is preserved by `register_clone`, `approve_clone`,
`reject_clone` and `kick_clone`, for every starting state that satisfies
it. -/
theorem registry_ops_preserve_noOverlap (ORIGINAL_SITE_URL : String)
    (s : RegistryState) (url ip now : String) (h : noOverlap s) :
    noOverlap (register_clone s url ip now).1 ∧
    noOverlap (approve_clone s url) ∧
    noOverlap (reject_clone s url) ∧
    noOverlap (kick_clone ORIGINAL_SITE_URL s url).1 :=
  ⟨noOverlap_register_preserved s url ip now h,
    noOverlap_approve_preserved s url h,
    noOverlap_reject_preserved s url h,
    noOverlap_kick_preserved ORIGINAL_SITE_URL s url h⟩

theorem registry_ops_preserve_noOverlap_witness :
    noOverlap ⟨["https://a.test"], [⟨"https://b.test", "t0", "8.8.8.8"⟩], []⟩ ∧
    (noOverlap (register_clone
        ⟨["https://a.test"], [⟨"https://b.test", "t0", "8.8.8.8"⟩], []⟩
        "https://c.test" "9.9.9.9" "t1").1 ∧
      noOverlap (approve_clone
        ⟨["https://a.test"], [⟨"https://b.test", "t0", "8.8.8.8"⟩], []⟩
        "https://c.test") ∧
      noOverlap (reject_clone
        ⟨["https://a.test"], [⟨"https://b.test", "t0", "8.8.8.8"⟩], []⟩
        "https://c.test") ∧
      noOverlap (kick_clone "https://o.test"
        ⟨["https://a.test"], [⟨"https://b.test", "t0", "8.8.8.8"⟩], []⟩
        "https://c.test").1) :=
  ⟨by decide, registry_ops_preserve_noOverlap "https://o.test"
    ⟨["https://a.test"], [⟨"https://b.test", "t0", "8.8.8.8"⟩], []⟩
    "https://c.test" "9.9.9.9" "t1" (by decide)⟩

